import Mathlib

/-!
Verification development for the OpenClaw conversational-agent repository.

The reasoning pipeline (`agent.py`), the tool layer (`tools.py`) and the
task store (`todo.py`) are shallowly embedded below.  Python strings are
modelled as lists of Unicode code points (`List Nat`); the external
collaborators (the ollama language model, the ChromaDB vector store's
retrieval results, the DuckDuckGo search client, the system clock and the
`difflib` similarity metric) are supplied as an explicit oracle record, so
that the pipeline itself is a pure function from (config, oracle, state,
input) to (response, state, effect trace).
-/

namespace OpenClaw

/-- Convert a Lean string literal to its list of code points.  Used only to
write concrete Python string values. -/
def pstr (s : String) : List Nat := s.data.map Char.toNat

/-- Python `str.lower` on a single code point, restricted to ASCII letters
(the inputs manipulated by the agent's deterministic rules are ASCII). -/
def lowerChar (c : Nat) : Nat := if 65 ≤ c ∧ c ≤ 90 then c + 32 else c

/-- Python `str.lower`. -/
def pyLower (s : List Nat) : List Nat := s.map lowerChar

/-- Python whitespace test used by `str.strip` (space, tab, LF, CR). -/
def isPySpace (c : Nat) : Bool := c = 32 || c = 9 || c = 10 || c = 13

/-- Python `str.strip`: drop whitespace from both ends. -/
def pyStrip (s : List Nat) : List Nat :=
  ((s.dropWhile isPySpace).reverse.dropWhile isPySpace).reverse

/-- Python `needle in hay` for strings (substring test). -/
def containsSub (hay needle : List Nat) : Bool :=
  (List.range (hay.length + 1)).any fun i => needle.isPrefixOf (hay.drop i)

/-- Python `s.startswith(p)`. -/
def startsWithL (s p : List Nat) : Bool := p.isPrefixOf s

/-- Python `s.endswith(p)`. -/
def endsWithL (s p : List Nat) : Bool := p.isSuffixOf s

example : pstr "Abc" = [65, 98, 99] := by decide
example : pyLower (pstr "AbC") = pstr "abc" := by decide
example : pyStrip (pstr "  hi ") = pstr "hi" := by decide
example : containsSub (pstr "hello there") (pstr "lo th") = true := by decide
example : containsSub (pstr "hello") (pstr "xyz") = false := by decide
example : startsWithL (pstr "i like tea") (pstr "i like") = true := by decide
example : endsWithL (pstr "really?") (pstr "?") = true := by decide

/-! ### Python `s.split(sep)[-1]`

`agent.py` line 222 computes `user_lower.split(trigger)[-1]`: the substring
after the last left-to-right, non-overlapping occurrence of `trigger`.
Only the last element of the split is ever used, so only it is embedded.
`Nat.find` picks the least occurrence index, exactly like `str.split`'s
left-to-right scan. -/

/-- Index of the first occurrence of `sep` in `s` (leftmost `i` such that
`sep` is a prefix of `s.drop i`), or `none`. -/
def firstOccIdx (sep s : List Nat) : Option Nat :=
  match s with
  | [] => none
  | _ :: t => if sep.isPrefixOf s then some 0 else (firstOccIdx sep t).map (· + 1)

/-- Fuelled worker for the last element of Python `s.split(sep)`: repeatedly
remove everything up to and including the first occurrence of `sep`. -/
def pySplitLastAux : Nat → List Nat → List Nat → List Nat
  | 0, _, s => s
  | fuel + 1, sep, s =>
    match firstOccIdx sep s with
    | none => s
    | some i => pySplitLastAux fuel sep (s.drop (i + sep.length))

/-- Last element of Python `s.split(sep)`.  Each removal step consumes at
least one element, so `s.length` is enough fuel.  Python raises on an empty
separator, so the empty-separator guard is arbitrary. -/
def pySplitLast (sep s : List Nat) : List Nat :=
  if sep = [] then s else pySplitLastAux s.length sep s

example : pySplitLast (pstr "to ") (pstr "i need to go to the gym") = pstr "the gym" := by decide
example : pySplitLast (pstr "zz") (pstr "abc") = pstr "abc" := by decide
example : pySplitLast (pstr "aa") (pstr "aaa") = pstr "a" := by decide

/-! ### Conversation window -/

/-- The agent's fixed short-term window size (`agent.py` line 41). -/
def maxContext : Nat := 6

/-- Last `n` elements of a list — Python `l[-n:]`. -/
def takeLast (n : Nat) (l : List α) : List α := (l.reverse.take n).reverse

/-- A message in the conversation window: `{"role": ..., "content": ...}`. -/
structure Msg where
  role : List Nat
  content : List Nat
deriving DecidableEq, Repr

/-- The only mutation `agent.py` applies to `short_term`: append one message,
then truncate to the most recent `max_context` entries
(`self.short_term.append(m); self.short_term = self.short_term[-self.max_context:]`). -/
def pushTrunc (l : List Msg) (m : Msg) : List Msg := takeLast maxContext (l ++ [m])

theorem takeLast_length_le (n : Nat) (l : List α) : (takeLast n l).length ≤ n := by
  simp [takeLast]

theorem takeLast_of_length_le (n : Nat) (l : List α) (h : l.length ≤ n) :
    takeLast n l = l := by
  unfold takeLast
  rw [List.take_of_length_le (by simpa using h), List.reverse_reverse]

theorem take_append_take (n : Nat) (a b : List α) :
    (a ++ b.take n).take n = (a ++ b).take n := by
  rw [List.take_append_eq_append_take, List.take_append_eq_append_take, List.take_take]
  have hm : min (n - a.length) n = n - a.length := Nat.min_eq_left (Nat.sub_le _ _)
  rw [hm]

/-- Truncating history before a push is the same as truncating after it. -/
theorem pushTrunc_takeLast (h : List Msg) (m : Msg) :
    pushTrunc (takeLast maxContext h) m = takeLast maxContext (h ++ [m]) := by
  simp only [pushTrunc, takeLast, List.reverse_append, List.reverse_reverse,
    List.reverse_cons, List.reverse_nil, List.nil_append]
  rw [take_append_take]

/-- Folding pushes from the empty window yields exactly the last
`maxContext` appended messages in order. -/
theorem foldl_pushTrunc (ms : List Msg) :
    ms.foldl pushTrunc [] = takeLast maxContext ms := by
  suffices h : ∀ (ms acc : List Msg) (hist : List Msg),
      acc = takeLast maxContext hist →
      ms.foldl pushTrunc acc = takeLast maxContext (hist ++ ms) by
    simpa using h ms [] [] (by simp [takeLast])
  intro ms
  induction ms with
  | nil => intro acc hist hacc; simpa using hacc
  | cons m ms ih =>
    intro acc hist hacc
    simp only [List.foldl_cons]
    rw [ih (pushTrunc acc m) (hist ++ [m]) (by rw [hacc, pushTrunc_takeLast])]
    simp

/-! ### Task store (`todo.py`) and tools (`tools.py`)

The JSON file behind `load_todos`/`save_todos` is threaded explicitly: each
tool takes the current task list and returns its message together with the
new task list. -/

/-- One record of `todo.json`: `{"task": ..., "done": ...}`. -/
structure TodoItem where
  task : List Nat
  done : Bool
deriving DecidableEq, Repr

/-- Embedding of `todo.add_task`: append `{"task": task, "done": False}` and report. -/
def add_task (task : List Nat) (todos : List TodoItem) : List Nat × List TodoItem :=
  (pstr "Task '" ++ task ++ pstr "' added.", todos ++ [⟨task, false⟩])

/-- Embedding of `todo.mark_done`: set the `done` flag of the indexed record (the index
produced by `complete_todo` is a Python `int ≥ 0`, hence `Nat`). -/
def mark_done (index : Nat) (todos : List TodoItem) : List Nat × List TodoItem :=
  if h : index < todos.length then
    let t := todos.get ⟨index, h⟩
    (pstr "Task '" ++ t.task ++ pstr "' marked as done.", todos.set index ⟨t.task, true⟩)
  else
    (pstr "Invalid task index.", todos)

/-- Embedding of `tools.add_todo`: reject case-insensitive duplicates
(`cleaned = task.strip().lower()` compared against each stored task's
`t["task"].strip().lower()`), otherwise delegate to `add_task`. -/
def add_todo (task : List Nat) (todos : List TodoItem) : List Nat × List TodoItem :=
  let cleaned := pyLower (pyStrip task)
  if todos.any fun t => cleaned = pyLower (pyStrip t.task) then
    (pstr "Task already exists.", todos)
  else
    add_task task todos

/-- The `for i, t in enumerate(todos)` loop of `tools.complete_todo`:
starting from `(best_match, best_score) = (None, 0)`, consider only
not-yet-done entries and keep the index of the strictly highest
`ratio(task_text.lower(), t["task"].lower())`. -/
def bestCandidate (ratio : List Nat → List Nat → ℚ) (taskText : List Nat) :
    List TodoItem → Nat → Option Nat × ℚ → Option Nat × ℚ
  | [], _, acc => acc
  | t :: ts, i, acc =>
    let acc' :=
      if t.done then acc
      else
        let score := ratio (pyLower taskText) (pyLower t.task)
        if score > acc.2 then (some i, score) else acc
    bestCandidate ratio taskText ts (i + 1) acc'

/-- Embedding of `tools.complete_todo`: fuzzy-match `task_text` against unfinished tasks
and mark the best candidate done when its score exceeds `0.45`.  The
`difflib.SequenceMatcher(...).ratio()` metric is an external library
function, supplied as the `ratio` argument. -/
def complete_todo (ratio : List Nat → List Nat → ℚ) (taskText : List Nat)
    (todos : List TodoItem) : List Nat × List TodoItem :=
  if todos = [] then
    (pstr "There are no tasks to complete.", todos)
  else
    match bestCandidate ratio taskText todos 0 (none, 0) with
    | (some i, score) =>
      if score > 45 / 100 then mark_done i todos
      else (pstr "No matching task found.", todos)
    | (none, _) => (pstr "No matching task found.", todos)

example :
    add_todo (pstr "Buy milk") [] =
      (pstr "Task 'Buy milk' added.", [⟨pstr "Buy milk", false⟩]) := by decide
example :
    add_todo (pstr "buy MILK ") [⟨pstr "Buy milk", false⟩] =
      (pstr "Task already exists.", [⟨pstr "Buy milk", false⟩]) := by decide
example :
    complete_todo (fun _ _ => 1/2) (pstr "bought milk") [⟨pstr "buy milk", false⟩] =
      (pstr "Task 'buy milk' marked as done.", [⟨pstr "buy milk", true⟩]) := by
  norm_num [complete_todo, bestCandidate, mark_done]
  decide
example :
    complete_todo (fun _ _ => 1/2) (pstr "x") [] =
      (pstr "There are no tasks to complete.", []) := by decide
example :
    complete_todo (fun _ _ => 2/5) (pstr "x") [⟨pstr "buy milk", false⟩] =
      (pstr "No matching task found.", [⟨pstr "buy milk", false⟩]) := by
  norm_num [complete_todo, bestCandidate]

/-! ### Agent embedding (`agent.py`)

The pipeline `Agent.process_single_intent` is embedded as a pure function.
External collaborators — the ollama model calls, the ChromaDB retrieval
results, the DuckDuckGo client, the system clock, and `difflib`'s
similarity metric — are supplied by an `Oracle` record.  The structured
model call is abstracted to its outcome at the `safe_parse` boundary: the
oracle reports either that `ollama.chat` raised (the `except` branch of
`call_model_json`), or the `Option`al decision that `safe_parse` extracted
from the returned text (`none` = both the direct JSON parse and the
brace-delimited-substring fallback failed, or the parsed value was falsy). -/

/-- Entries of `self.internal_log`, one constructor per `append` site. -/
inductive LogEntry
  | preferenceStored
  | knowledgeGuard
  | retrievedMemory (docs : List (List Nat))
  | distancesLogged (ds : List ℚ)
  | modelJsonFailed
  | thoughtLogged (t : List Nat)
  | toolSelected (action : List Nat)
  | toolInputLogged (inp : List Nat)
  | toolObservation (obs : List Nat)
  | finalAnswerMissing
  | memorySaved (content : List Nat)
  | proactiveSuggestion
deriving DecidableEq, Repr

/-- Externally visible effects of one pipeline run, in order. -/
inductive Effect
  | appendedTurn (m : Msg)
  | plainCall (messages : List Msg)
  | structuredCall (messages : List Msg)
  | memoryQueried (q : List Nat) (k : Nat)
  | memoryAdded (text : List Nat)
  | toolInvoked (action input : List Nat)
deriving DecidableEq, Repr

/-- A parsed Reasoning Decision, after the `parsed.get(...)` defaulting
(`thought`/`action_input`/`memory_content` default `""`, `action` defaults
`"none"`, `final_answer` is `parsed.get("final_answer", "") or ""`,
`save_memory` defaults `False`). -/
structure Decision where
  thought : List Nat
  action : List Nat
  actionInput : List Nat
  finalAnswer : List Nat
  saveMemory : Bool
  memoryContent : List Nat
deriving DecidableEq, Repr

/-- Outcome of `call_model_json`. -/
inductive JsonResult
  | exn
  | content (parsed : Option Decision)
deriving DecidableEq, Repr

/-- The external collaborators, as deterministic functions of their inputs. -/
structure Oracle where
  plain : List Msg → List Nat
  structured : List Msg → JsonResult
  ddgs : List Nat → List (List Nat × List Nat)
  dateStr : List Nat
  memDocs : List Nat → List (List Nat)
  memDists : List Nat → List ℚ
  ratio : List Nat → List Nat → ℚ

/-- The agent's mutable state: the conversation window, the internal log,
the `todo.json` contents, and the long-term memory documents in insertion
order. -/
structure AgentState where
  shortTerm : List Msg
  internalLog : List LogEntry
  todos : List TodoItem
  memoryStore : List (List Nat)
deriving DecidableEq

/-- The session configuration fields read by the pipeline. -/
structure Config where
  agentName : List Nat
  agentRole : List Nat
  userName : List Nat
  userInfo : List Nat
  systemInstructions : List Nat
deriving DecidableEq

/-- Result of one `process_single_intent` run. -/
structure StepResult where
  response : List Nat
  state : AgentState
  trace : List Effect
deriving DecidableEq

/-- Embedding of `tools.internet_search`, with the DuckDuckGo client supplied by the
oracle as a list of (title, body) results (the client caps them at 6). -/
def internet_search (o : Oracle) (query : List Nat) : List Nat :=
  let results := o.ddgs (query ++ pstr " explanation meaning context")
  if results = [] then pstr "No relevant results found."
  else
    let formatted := (results.filter fun r => 40 < r.2.length).map fun r =>
      r.1 ++ pstr "\n" ++ r.2
    List.intercalate (pstr "\n\n---\n\n") (formatted.take 3)

/-- The dispatch core of `Agent.execute_tool` (without its logging). -/
def runTool (o : Oracle) (action input : List Nat) (todos : List TodoItem) :
    Option (List Nat) × List TodoItem :=
  if action = pstr "search" then (some (internet_search o input), todos)
  else if action = pstr "add_todo" then
    let p := add_todo input todos
    (some p.1, p.2)
  else if action = pstr "complete_todo" then
    let p := complete_todo o.ratio input todos
    (some p.1, p.2)
  else if action = pstr "date" then (some o.dateStr, todos)
  else (none, todos)

/-- Embedding of `Agent.execute_tool`: log selection and input, dispatch, and log the
observation when the result is truthy (not `None` and not empty). -/
def executeTool (o : Oracle) (action input : List Nat) (st : AgentState) :
    Option (List Nat) × AgentState × List Effect :=
  let st1 := { st with internalLog :=
    st.internalLog ++ [LogEntry.toolSelected action, LogEntry.toolInputLogged input] }
  let p := runTool o action input st1.todos
  let st2 := { st1 with todos := p.2 }
  let st3 :=
    match p.1 with
    | some r =>
      if r = [] then st2
      else { st2 with internalLog := st2.internalLog ++ [LogEntry.toolObservation r] }
    | none => st2
  (p.1, st3, [Effect.toolInvoked action input])

/-- Approximation of Python's `f"{retrieved_memory}"` rendering of a list. -/
def formatDocs (docs : List (List Nat)) : List Nat :=
  pstr "[" ++ List.intercalate (pstr ", ") docs ++ pstr "]"

/-- Embedding of `Agent.system_prompt`: the dynamic system prompt (the braces of the
embedded JSON schema are written as their code points). -/
def systemPrompt (cfg : Config) (docs : List (List Nat)) : List Nat :=
  pstr "\nYou are " ++ cfg.agentName ++ pstr ".\nRole: " ++ cfg.agentRole ++
  pstr ".\n\nSystem Instructions:\n" ++ cfg.systemInstructions ++
  pstr "\n\nUser: " ++ cfg.userName ++ pstr "\nUser Info: " ++ cfg.userInfo ++
  pstr "\n\nRetrieved Memory:\n" ++ formatDocs docs ++
  pstr "\n\nRules:\n- Use tools ONLY if necessary.\n- For normal knowledge questions, answer directly.\n- Use add_todo only for explicit task creation.\n- Use complete_todo only if user clearly says task is finished.\n- Use date only for date requests.\n\nReasoning format:\n\n\x7b\n \"thought\": \"...\",\n \"action\": \"search | add_todo | complete_todo | date | none\",\n \"action_input\": \"...\",\n \"save_memory\": true/false,\n \"memory_content\": \"...\",\n \"final_answer\": \"...\"\n\x7d\n"

/-- The message list of the structured reasoning call: the dynamic system
prompt followed by the full conversation window (which already contains
the appended user turn). -/
def reasoningMessages (cfg : Config) (o : Oracle) (shortTerm : List Msg)
    (input : List Nat) : List Msg :=
  ⟨pstr "system", systemPrompt cfg (o.memDocs input)⟩ :: shortTerm

/-- Python `f"Observation: {observation}"` on an `Optional` observation. -/
def fmtObs : Option (List Nat) → List Nat
  | some r => r
  | none => pstr "None"

/-- The two-message context of the synthesis call after a tool action. -/
def synthMessages (obs : Option (List Nat)) : List Msg :=
  [⟨pstr "system", pstr "Produce the final answer based on the observation."⟩,
   ⟨pstr "user", pstr "Observation: " ++ fmtObs obs⟩]

/-- The two-message context of the knowledge-guard answer: persona plus the
raw question only. -/
def personaMessages (cfg : Config) (input : List Nat) : List Msg :=
  [⟨pstr "system", pstr "You are " ++ cfg.agentRole ++ pstr "."⟩,
   ⟨pstr "user", input⟩]

/-- Rule 1 of the router (deterministic preference storage). -/
def preferenceStarts : List (List Nat) :=
  [pstr "i like", pstr "i love", pstr "i prefer", pstr "my favorite", pstr "remember"]

def rule1Cond (ul : List Nat) : Bool :=
  (preferenceStarts.any fun p => startsWithL ul p) && !(endsWithL ul (pstr "?"))

/-- Rule 2 keywords (deterministic task completion). -/
def completionKeywords : List (List Nat) :=
  [pstr "i did", pstr "i finished", pstr "completed"]

def rule2Cond (ul : List Nat) : Bool :=
  completionKeywords.any fun k => containsSub ul k

/-- Rule 3 triggers (deterministic task creation), in source order. -/
def task_triggers : List (List Nat) :=
  [pstr "i need to", pstr "i have to", pstr "remind me to"]

/-- Rule 4 (deterministic date handling). -/
def rule4Cond (ul : List Nat) : Bool :=
  containsSub ul (pstr "today") || containsSub ul (pstr "current date")

/-- Rule 5 (knowledge guard). -/
def knowledgePrefixList : List (List Nat) :=
  [pstr "what is", pstr "who is", pstr "define", pstr "explain", pstr "why"]

def searchIntentKeywords : List (List Nat) :=
  [pstr "search", pstr "latest", pstr "recent", pstr "find", pstr "trend", pstr "news"]

def rule5Cond (ul : List Nat) : Bool :=
  (knowledgePrefixList.any fun p => startsWithL ul p) &&
    !(searchIntentKeywords.any fun k => containsSub ul k)

/-- The parse-failure fallback (`if not parsed:` branch): one plain call on
the full conversation window. -/
def fallbackPlain (o : Oracle) (st : AgentState) (eff : List Effect) :
    AgentState × List Effect × List Nat :=
  (st, eff ++ [Effect.plainCall st.shortTerm], o.plain st.shortTerm)

/-- The decision-driven part of the reasoning loop (`agent.py` lines
281-323 up to the response append): first tool-and-synthesize block,
`if not final_answer` middle fallback, second `Thought` log, the duplicated
tool-and-synthesize block, then the memory save. -/
def decisionFlow (o : Oracle) (st : AgentState) (eff : List Effect) (d : Decision) :
    AgentState × List Effect × List Nat :=
  let st1 := { st with internalLog := st.internalLog ++ [LogEntry.thoughtLogged d.thought] }
  let r1 :=
    if d.action ≠ pstr "none" then
      let t := executeTool o d.action d.actionInput st1
      (o.plain (synthMessages t.1), t.2.1, t.2.2 ++ [Effect.plainCall (synthMessages t.1)])
    else (d.finalAnswer, st1, ([] : List Effect))
  let r2 :=
    if r1.1 = [] then
      ({ r1.2.1 with internalLog := r1.2.1.internalLog ++ [LogEntry.finalAnswerMissing] },
       [Effect.plainCall r1.2.1.shortTerm], o.plain r1.2.1.shortTerm)
    else (r1.2.1, ([] : List Effect), r1.1)
  let st4 := { r2.1 with internalLog := r2.1.internalLog ++ [LogEntry.thoughtLogged d.thought] }
  let r3 :=
    if d.action ≠ pstr "none" then
      let t := executeTool o d.action d.actionInput st4
      (o.plain (synthMessages t.1), t.2.1, t.2.2 ++ [Effect.plainCall (synthMessages t.1)])
    else (r2.2.2, st4, ([] : List Effect))
  let r4 :=
    if d.saveMemory ∧ d.memoryContent ≠ [] then
      ({ r3.2.1 with
          memoryStore := r3.2.1.memoryStore ++ [d.memoryContent],
          internalLog := r3.2.1.internalLog ++ [LogEntry.memorySaved d.memoryContent] },
       [Effect.memoryAdded d.memoryContent])
    else (r3.2.1, ([] : List Effect))
  (r4.1, eff ++ r1.2.2 ++ r2.2.1 ++ r3.2.2 ++ r4.2, r3.1)

/-- Step 6 of the pipeline: memory retrieval, structured model call, then
either the parse-failure fallback or the decision flow. -/
def reasoningCycle (cfg : Config) (o : Oracle) (st : AgentState)
    (userInput : List Nat) : AgentState × List Effect × List Nat :=
  let docs := o.memDocs userInput
  let dists := o.memDists userInput
  let st1 := { st with internalLog :=
    st.internalLog ++ [LogEntry.retrievedMemory docs, LogEntry.distancesLogged dists] }
  let msgs := reasoningMessages cfg o st1.shortTerm userInput
  let eff0 := [Effect.memoryQueried userInput 2, Effect.structuredCall msgs]
  match o.structured msgs with
  | .exn =>
    fallbackPlain o
      { st1 with internalLog := st1.internalLog ++ [LogEntry.modelJsonFailed] } eff0
  | .content none => fallbackPlain o st1 eff0
  | .content (some d) => decisionFlow o st1 eff0 d

/-- The router and reasoning body of `process_single_intent`, after the
user turn has been appended.  It never touches `shortTerm`. -/
def routeAndReason (cfg : Config) (o : Oracle) (st : AgentState)
    (userInput : List Nat) : AgentState × List Effect × List Nat :=
  let ul := pyStrip (pyLower userInput)
  if rule1Cond ul then
    let fact := pstr "User preference: " ++ pyStrip userInput
    ({ st with
        memoryStore := st.memoryStore ++ [fact],
        internalLog := st.internalLog ++ [LogEntry.preferenceStored] },
     [Effect.memoryAdded fact], pstr "Got it. I'll remember that.")
  else if rule2Cond ul then
    let p := complete_todo o.ratio userInput st.todos
    ({ st with todos := p.2 }, [], p.1)
  else
    match task_triggers.find? (fun trig => containsSub ul trig) with
    | some trig =>
      let taskText := pyStrip (pySplitLast trig ul)
      let p := add_todo taskText st.todos
      ({ st with todos := p.2 }, [], p.1)
    | none =>
      if rule4Cond ul then (st, [], o.dateStr)
      else if rule5Cond ul then
        let msgs := personaMessages cfg userInput
        ({ st with internalLog := st.internalLog ++ [LogEntry.knowledgeGuard] },
         [Effect.plainCall msgs], o.plain msgs)
      else reasoningCycle cfg o st userInput

/-- The common tail of every return path: append the assistant turn and
truncate the window. -/
def respond (st : AgentState) (eff : List Effect) (resp : List Nat) : StepResult :=
  let a : Msg := ⟨pstr "assistant", resp⟩
  { response := resp,
    state := { st with shortTerm := pushTrunc st.shortTerm a },
    trace := eff ++ [Effect.appendedTurn a] }

/-- Embedding of `Agent.process_single_intent`: append the user turn, route, respond. -/
def processSingleIntent (cfg : Config) (o : Oracle) (st : AgentState)
    (userInput : List Nat) : StepResult :=
  let u : Msg := ⟨pstr "user", userInput⟩
  let st1 := { st with shortTerm := pushTrunc st.shortTerm u }
  let p := routeAndReason cfg o st1 userInput
  respond p.1 (Effect.appendedTurn u :: p.2.1) p.2.2

/-! ### Frame lemmas: the reasoning body never touches the window -/

theorem executeTool_shortTerm (o : Oracle) (a i : List Nat) (st : AgentState) :
    (executeTool o a i st).2.1.shortTerm = st.shortTerm := by
  unfold executeTool
  dsimp only
  split <;> first | rfl | (rename_i r _; split <;> rfl)

theorem decisionFlow_shortTerm (o : Oracle) (st : AgentState) (eff : List Effect)
    (d : Decision) : (decisionFlow o st eff d).1.shortTerm = st.shortTerm := by
  unfold decisionFlow
  dsimp only
  split_ifs <;> simp_all [executeTool_shortTerm]

theorem reasoningCycle_shortTerm (cfg : Config) (o : Oracle) (st : AgentState)
    (input : List Nat) : (reasoningCycle cfg o st input).1.shortTerm = st.shortTerm := by
  unfold reasoningCycle fallbackPlain
  dsimp only
  split
  · rfl
  · rfl
  · rw [decisionFlow_shortTerm]

theorem routeAndReason_shortTerm (cfg : Config) (o : Oracle) (st : AgentState)
    (input : List Nat) : (routeAndReason cfg o st input).1.shortTerm = st.shortTerm := by
  unfold routeAndReason
  dsimp only
  split
  · rfl
  split
  · rfl
  split
  · rfl
  split
  · rfl
  split
  · rfl
  rw [reasoningCycle_shortTerm]

/-- The window after one pipeline run: the user turn and the assistant turn
are pushed through `pushTrunc`, and nothing else happens to it. -/
theorem processSingleIntent_shortTerm (cfg : Config) (o : Oracle) (st : AgentState)
    (input : List Nat) :
    (processSingleIntent cfg o st input).state.shortTerm =
      pushTrunc (pushTrunc st.shortTerm ⟨pstr "user", input⟩)
        ⟨pstr "assistant", (processSingleIntent cfg o st input).response⟩ := by
  unfold processSingleIntent respond
  dsimp only
  rw [routeAndReason_shortTerm]

/-! ### Properties of the tools -/

theorem set_getElem?_same (l : List α) (i : Nat) (a : α) (h : l[i]? = some a) :
    l.set i a = l := by
  have hi : i < l.length := by
    by_contra hge
    rw [List.getElem?_eq_none (by omega)] at h
    exact Option.noConfusion h
  apply List.ext_getElem?
  intro n
  by_cases hn : n = i
  · subst hn
    rw [List.getElem?_set_self hi, h]
  · rw [List.getElem?_set_ne (fun he => hn he.symm)]

/-- Any index selected by the `complete_todo` candidate loop either came in
with the accumulator or points at a not-yet-done entry of the scanned list,
offset by the starting index. -/
theorem bestCandidate_some (ratio : List Nat → List Nat → ℚ) (text : List Nat) :
    ∀ (ts : List TodoItem) (i0 : Nat) (acc : Option Nat × ℚ) (j : Nat) (s : ℚ),
      bestCandidate ratio text ts i0 acc = (some j, s) →
      acc = (some j, s) ∨
        ∃ k t, ts[k]? = some t ∧ t.done = false ∧ j = i0 + k := by
  intro ts
  induction ts with
  | nil =>
    intro i0 acc j s h
    exact Or.inl h
  | cons t ts ih =>
    intro i0 acc j s h
    unfold bestCandidate at h
    rcases ih (i0 + 1) _ j s h with hacc | ⟨k, t', hk, hd, hj⟩
    · cases ht : t.done with
      | true => rw [if_pos (by rw [ht])] at hacc; exact Or.inl hacc
      | false =>
        rw [if_neg (by rw [ht]; exact Bool.false_ne_true)] at hacc
        by_cases hsc : ratio (pyLower text) (pyLower t.task) > acc.2
        · rw [if_pos hsc] at hacc
          refine Or.inr ⟨0, t, by simp, ht, ?_⟩
          have := congrArg Prod.fst hacc
          simp at this
          omega
        · rw [if_neg hsc] at hacc; exact Or.inl hacc
    · exact Or.inr ⟨k + 1, t', by simpa using hk, hd, by omega⟩

/-- C10: `complete_todo` preserves the length and the task texts of the
list, and either leaves it unchanged or flips exactly one not-yet-done
entry's flag to done. -/
theorem complete_todo_frame_laws (ratio : List Nat → List Nat → ℚ)
    (text : List Nat) (todos : List TodoItem) :
    (complete_todo ratio text todos).2.length = todos.length ∧
    (complete_todo ratio text todos).2.map TodoItem.task = todos.map TodoItem.task ∧
    ((complete_todo ratio text todos).2 = todos ∨
      ∃ i t, todos[i]? = some t ∧ t.done = false ∧
        (complete_todo ratio text todos).2 = todos.set i ⟨t.task, true⟩) := by
  unfold complete_todo
  by_cases hnil : todos = []
  · rw [if_pos hnil]
    exact ⟨rfl, rfl, Or.inl rfl⟩
  · rw [if_neg hnil]
    cases hbc : bestCandidate ratio text todos 0 (none, 0) with
    | mk bm bs =>
      cases bm with
      | none => exact ⟨rfl, rfl, Or.inl rfl⟩
      | some i =>
        dsimp only
        by_cases hgt : bs > 45 / 100
        · rw [if_pos hgt]
          rcases bestCandidate_some ratio text todos 0 (none, 0) i bs hbc with hacc | ⟨k, t, hk, hd, hik⟩
          · exact absurd (congrArg Prod.fst hacc) (by simp)
          · have hik' : i = k := by omega
            subst hik'
            have hi : i < todos.length := by
              by_contra hge
              rw [List.getElem?_eq_none (by omega)] at hk
              exact Option.noConfusion hk
            have hget : todos.get ⟨i, hi⟩ = t := by
              have := List.getElem?_eq_getElem hi
              rw [this] at hk
              simpa using hk
            unfold mark_done
            rw [dif_pos hi]
            refine ⟨by simp, ?_, Or.inr ⟨i, t, hk, hd, by rw [hget]⟩⟩
            rw [List.map_set, hget]
            exact set_getElem?_same _ _ _ (by rw [List.getElem?_map, hk]; rfl)
        · rw [if_neg hgt]
          exact ⟨rfl, rfl, Or.inl rfl⟩

/-- C2 counterexample: on the empty task list, `complete_todo` returns the
sentinel "There are no tasks to complete.", which differs from the
"No matching task found." the claim requires. -/
theorem complete_todo_empty_list_counterexample :
    complete_todo (fun _ _ => 0) (pstr "buy milk") [] =
      (pstr "There are no tasks to complete.", []) ∧
    pstr "There are no tasks to complete." ≠ pstr "No matching task found." := by
  exact ⟨rfl, by decide⟩

/-- C2 (amended): the empty task list yields "There are no tasks to
complete."; a nonempty list whose candidate scan selects nothing or whose
best score is ≤ 0.45 yields "No matching task found." and leaves the tasks
unchanged; and the list is changed only when the best score strictly
exceeds 0.45. -/
theorem complete_todo_failure_cases (ratio : List Nat → List Nat → ℚ)
    (text : List Nat) (todos : List TodoItem) :
    (todos = [] →
      complete_todo ratio text todos = (pstr "There are no tasks to complete.", todos)) ∧
    (todos ≠ [] →
      ((bestCandidate ratio text todos 0 (none, 0)).1 = none ∨
        (bestCandidate ratio text todos 0 (none, 0)).2 ≤ 45 / 100) →
      complete_todo ratio text todos = (pstr "No matching task found.", todos)) ∧
    ((complete_todo ratio text todos).2 ≠ todos →
      (bestCandidate ratio text todos 0 (none, 0)).2 > 45 / 100) := by
  refine ⟨?_, ?_, ?_⟩
  · intro h
    subst h
    rfl
  · intro hne hsc
    unfold complete_todo
    rw [if_neg hne]
    cases hbc : bestCandidate ratio text todos 0 (none, 0) with
    | mk bm bs =>
      cases bm with
      | none => rfl
      | some i =>
        dsimp only
        rw [hbc] at hsc
        rcases hsc with hsc | hsc
        · exact absurd hsc (by simp)
        · rw [if_neg (not_lt.mpr hsc)]
  · intro hch
    by_cases hnil : todos = []
    · unfold complete_todo at hch
      rw [if_pos hnil] at hch
      exact absurd rfl hch
    · unfold complete_todo at hch
      rw [if_neg hnil] at hch
      cases hbc : bestCandidate ratio text todos 0 (none, 0) with
      | mk bm bs =>
        rw [hbc] at hch
        cases bm with
        | none => exact absurd rfl hch
        | some i =>
          dsimp only at hch ⊢
          by_cases hgt : bs > 45 / 100
          · exact hgt
          · rw [if_neg hgt] at hch
            exact absurd rfl hch

/-- C2 witness: a nonempty list whose only task is already done produces
"No matching task found." via the amended theorem. -/
theorem complete_todo_failure_cases_witness :
    complete_todo (fun _ _ => 0) (pstr "x") [⟨pstr "buy milk", true⟩] =
      (pstr "No matching task found.", [⟨pstr "buy milk", true⟩]) :=
  (complete_todo_failure_cases (fun _ _ => 0) (pstr "x")
    [⟨pstr "buy milk", true⟩]).2.1 (by decide) (Or.inl rfl)

/-- C6: calling `add_todo` twice with task texts equal up to trimming and
lower-casing always yields the "already exists" sentinel on the second
call, the second call never changes the list, and when no existing task
matched beforehand the list grows by exactly one entry across both calls. -/
theorem add_todo_idempotent (t1 t2 : List Nat) (todos : List TodoItem)
    (heq : pyLower (pyStrip t2) = pyLower (pyStrip t1)) :
    (add_todo t2 (add_todo t1 todos).2).1 = pstr "Task already exists." ∧
    (add_todo t2 (add_todo t1 todos).2).2 = (add_todo t1 todos).2 ∧
    ((∀ t ∈ todos, pyLower (pyStrip t.task) ≠ pyLower (pyStrip t1)) →
      (add_todo t1 todos).2.length = todos.length + 1) := by
  by_cases hdup : (todos.any fun t => pyLower (pyStrip t1) = pyLower (pyStrip t.task)) = true
  · have h1 : add_todo t1 todos = (pstr "Task already exists.", todos) := by
      unfold add_todo
      rw [if_pos hdup]
    have hdup2 : (todos.any fun t => pyLower (pyStrip t2) = pyLower (pyStrip t.task)) = true := by
      rw [List.any_eq_true] at hdup ⊢
      rcases hdup with ⟨t, ht, hcl⟩
      rw [decide_eq_true_eq] at hcl
      exact ⟨t, ht, by rw [decide_eq_true_eq, heq, hcl]⟩
    have h2 : add_todo t2 todos = (pstr "Task already exists.", todos) := by
      unfold add_todo
      rw [if_pos hdup2]
    rw [h1]
    dsimp only
    rw [h2]
    refine ⟨rfl, rfl, ?_⟩
    intro hfresh
    rw [List.any_eq_true] at hdup
    rcases hdup with ⟨t, ht, hcl⟩
    rw [decide_eq_true_eq] at hcl
    exact absurd hcl.symm (hfresh t ht)
  · have h1 : add_todo t1 todos =
        (pstr "Task '" ++ t1 ++ pstr "' added.", todos ++ [⟨t1, false⟩]) := by
      unfold add_todo add_task
      rw [if_neg hdup]
    have hdup2 : ((todos ++ [(⟨t1, false⟩ : TodoItem)]).any
        fun t => pyLower (pyStrip t2) = pyLower (pyStrip t.task)) = true := by
      rw [List.any_eq_true]
      refine ⟨(⟨t1, false⟩ : TodoItem), by simp, ?_⟩
      rw [decide_eq_true_eq]
      exact heq
    have h2 : add_todo t2 (todos ++ [(⟨t1, false⟩ : TodoItem)]) =
        (pstr "Task already exists.", todos ++ [(⟨t1, false⟩ : TodoItem)]) := by
      unfold add_todo
      rw [if_pos hdup2]
    rw [h1]
    dsimp only
    rw [h2]
    exact ⟨rfl, rfl, fun _ => by simp⟩

/-- C6 witness: adding "Buy milk" then " buy MILK " to the empty list. -/
theorem add_todo_idempotent_witness :
    (add_todo (pstr " buy MILK ") (add_todo (pstr "Buy milk") []).2).1 =
        pstr "Task already exists." ∧
    (add_todo (pstr " buy MILK ") (add_todo (pstr "Buy milk") []).2).2 =
        (add_todo (pstr "Buy milk") []).2 ∧
    (add_todo (pstr "Buy milk") []).2.length = 0 + 1 := by
  have h := add_todo_idempotent (pstr "Buy milk") (pstr " buy MILK ") [] (by decide)
  exact ⟨h.1, h.2.1, h.2.2 (by simp)⟩

/-! ### Concrete fixtures for witnesses and counterexamples -/

/-- The default session configuration of `config.py`. -/
def cfg0 : Config :=
  ⟨pstr "OpenClaw", pstr "Autonomous AI Agent", pstr "User", pstr "", pstr ""⟩

/-- An oracle whose structured call returns unparsable content and whose
other collaborators answer deterministically. -/
def oracle0 : Oracle where
  plain := fun _ => pstr "plain answer"
  structured := fun _ => .content none
  ddgs := fun _ => []
  dateStr := pstr "Sunday, October 12, 2025"
  memDocs := fun _ => []
  memDists := fun _ => []
  ratio := fun _ _ => 0

/-- A fresh agent state. -/
def st0 : AgentState := ⟨[], [], [], []⟩

/-! ### C3: the conversation window invariant -/

/-- C3: after any sequence of window pushes the window holds at most
`maxContext` = 6 entries, and is exactly the most recent 6 pushed messages
in their original order; moreover one full pipeline run pushes exactly the
user turn and the assistant turn, so a window that was the last-6 of some
turn history is afterwards the last-6 of that history extended by those
two turns (and in particular still has at most 6 entries). -/
theorem conversation_window_invariant :
    (∀ ms : List Msg,
        (ms.foldl pushTrunc []).length ≤ maxContext ∧
        ms.foldl pushTrunc [] = takeLast maxContext ms) ∧
    (∀ (cfg : Config) (o : Oracle) (st : AgentState) (input : List Nat)
        (hist : List Msg),
        st.shortTerm = takeLast maxContext hist →
        (processSingleIntent cfg o st input).state.shortTerm =
          takeLast maxContext (hist ++
            [⟨pstr "user", input⟩,
             ⟨pstr "assistant", (processSingleIntent cfg o st input).response⟩]) ∧
        (processSingleIntent cfg o st input).state.shortTerm.length ≤ maxContext) := by
  constructor
  · intro ms
    refine ⟨?_, foldl_pushTrunc ms⟩
    rw [foldl_pushTrunc]
    exact takeLast_length_le _ _
  · intro cfg o st input hist hst
    have h1 := processSingleIntent_shortTerm cfg o st input
    constructor
    · rw [h1, hst, pushTrunc_takeLast, pushTrunc_takeLast, List.append_assoc]
      rfl
    · rw [h1]
      unfold pushTrunc
      exact takeLast_length_le _ _

/-- C3 witness: a fresh agent processing one utterance ends with exactly
the user and assistant turns in the window. -/
theorem conversation_window_invariant_witness :
    (processSingleIntent cfg0 oracle0 st0 (pstr "hello there")).state.shortTerm =
      takeLast maxContext ([] ++
        [⟨pstr "user", pstr "hello there"⟩,
         ⟨pstr "assistant",
           (processSingleIntent cfg0 oracle0 st0 (pstr "hello there")).response⟩]) ∧
    (processSingleIntent cfg0 oracle0 st0 (pstr "hello there")).state.shortTerm.length ≤
      maxContext :=
  conversation_window_invariant.2 cfg0 oracle0 st0 (pstr "hello there") [] rfl

/-! ### C5: deterministic preference capture (rule 1) -/

/-- C5: whenever the lower-cased, trimmed input starts with one of the
preference phrasings and does not end with "?", the run stores exactly one
memory record — the trimmed input tagged `User preference:` — returns the
fixed acknowledgment, and its trace contains no model call (no `plainCall`
or `structuredCall` effect), no memory query and no tool invocation. -/
theorem preference_capture_deterministic (cfg : Config) (o : Oracle)
    (st : AgentState) (input : List Nat)
    (h : rule1Cond (pyStrip (pyLower input)) = true) :
    processSingleIntent cfg o st input =
      { response := pstr "Got it. I'll remember that.",
        state := { shortTerm := pushTrunc (pushTrunc st.shortTerm ⟨pstr "user", input⟩)
                     ⟨pstr "assistant", pstr "Got it. I'll remember that."⟩,
                   internalLog := st.internalLog ++ [LogEntry.preferenceStored],
                   todos := st.todos,
                   memoryStore := st.memoryStore ++
                     [pstr "User preference: " ++ pyStrip input] },
        trace := [Effect.appendedTurn ⟨pstr "user", input⟩,
                  Effect.memoryAdded (pstr "User preference: " ++ pyStrip input),
                  Effect.appendedTurn
                    ⟨pstr "assistant", pstr "Got it. I'll remember that."⟩] } := by
  unfold processSingleIntent routeAndReason respond
  dsimp only
  rw [if_pos h]
  rfl

/-- C5 witness: "i like tea". -/
theorem preference_capture_deterministic_witness :
    processSingleIntent cfg0 oracle0 st0 (pstr "i like tea") =
      { response := pstr "Got it. I'll remember that.",
        state := { shortTerm := pushTrunc (pushTrunc st0.shortTerm ⟨pstr "user", pstr "i like tea"⟩)
                     ⟨pstr "assistant", pstr "Got it. I'll remember that."⟩,
                   internalLog := st0.internalLog ++ [LogEntry.preferenceStored],
                   todos := st0.todos,
                   memoryStore := st0.memoryStore ++
                     [pstr "User preference: " ++ pyStrip (pstr "i like tea")] },
        trace := [Effect.appendedTurn ⟨pstr "user", pstr "i like tea"⟩,
                  Effect.memoryAdded (pstr "User preference: " ++ pyStrip (pstr "i like tea")),
                  Effect.appendedTurn
                    ⟨pstr "assistant", pstr "Got it. I'll remember that."⟩] } :=
  preference_capture_deterministic cfg0 oracle0 st0 (pstr "i like tea") (by decide)

/-! ### C7: the knowledge guard (rule 5) -/

/-- C7: when no earlier rule matches and the input starts with a knowledge
prefix but contains no search-intent keyword, the answer is a single plain
model call whose context is exactly the persona message and the raw
question; the trace shows no memory query, no structured call, no tool
invocation and no memory write. -/
theorem knowledge_guard_direct_answer (cfg : Config) (o : Oracle)
    (st : AgentState) (input : List Nat)
    (h1 : rule1Cond (pyStrip (pyLower input)) = false)
    (h2 : rule2Cond (pyStrip (pyLower input)) = false)
    (h3 : task_triggers.find?
      (fun trig => containsSub (pyStrip (pyLower input)) trig) = none)
    (h4 : rule4Cond (pyStrip (pyLower input)) = false)
    (h5 : rule5Cond (pyStrip (pyLower input)) = true) :
    processSingleIntent cfg o st input =
      { response := o.plain (personaMessages cfg input),
        state := { shortTerm := pushTrunc (pushTrunc st.shortTerm ⟨pstr "user", input⟩)
                     ⟨pstr "assistant", o.plain (personaMessages cfg input)⟩,
                   internalLog := st.internalLog ++ [LogEntry.knowledgeGuard],
                   todos := st.todos,
                   memoryStore := st.memoryStore },
        trace := [Effect.appendedTurn ⟨pstr "user", input⟩,
                  Effect.plainCall (personaMessages cfg input),
                  Effect.appendedTurn
                    ⟨pstr "assistant", o.plain (personaMessages cfg input)⟩] } := by
  unfold processSingleIntent routeAndReason respond
  dsimp only
  rw [if_neg (by rw [h1]; exact Bool.false_ne_true),
      if_neg (by rw [h2]; exact Bool.false_ne_true), h3]
  dsimp only
  rw [if_neg (by rw [h4]; exact Bool.false_ne_true), if_pos h5]
  rfl

/-- C7 witness: "What is photosynthesis". -/
theorem knowledge_guard_direct_answer_witness :
    processSingleIntent cfg0 oracle0 st0 (pstr "What is photosynthesis") =
      { response := oracle0.plain (personaMessages cfg0 (pstr "What is photosynthesis")),
        state := { shortTerm := pushTrunc
                     (pushTrunc st0.shortTerm ⟨pstr "user", pstr "What is photosynthesis"⟩)
                     ⟨pstr "assistant",
                       oracle0.plain (personaMessages cfg0 (pstr "What is photosynthesis"))⟩,
                   internalLog := st0.internalLog ++ [LogEntry.knowledgeGuard],
                   todos := st0.todos,
                   memoryStore := st0.memoryStore },
        trace := [Effect.appendedTurn ⟨pstr "user", pstr "What is photosynthesis"⟩,
                  Effect.plainCall (personaMessages cfg0 (pstr "What is photosynthesis")),
                  Effect.appendedTurn
                    ⟨pstr "assistant",
                      oracle0.plain (personaMessages cfg0 (pstr "What is photosynthesis"))⟩] } :=
  knowledge_guard_direct_answer cfg0 oracle0 st0 (pstr "What is photosynthesis")
    (by decide) (by decide) (by decide) (by decide) (by decide)

/-! ### Reaching the reasoning cycle (rule 6) -/

/-- When none of the five deterministic rules matches, the pipeline runs
the reasoning cycle on the pushed window. -/
theorem routeAndReason_rule6 (cfg : Config) (o : Oracle) (st : AgentState)
    (input : List Nat)
    (h1 : rule1Cond (pyStrip (pyLower input)) = false)
    (h2 : rule2Cond (pyStrip (pyLower input)) = false)
    (h3 : task_triggers.find?
      (fun trig => containsSub (pyStrip (pyLower input)) trig) = none)
    (h4 : rule4Cond (pyStrip (pyLower input)) = false)
    (h5 : rule5Cond (pyStrip (pyLower input)) = false) :
    routeAndReason cfg o st input = reasoningCycle cfg o st input := by
  unfold routeAndReason
  dsimp only
  rw [if_neg (by rw [h1]; exact Bool.false_ne_true),
      if_neg (by rw [h2]; exact Bool.false_ne_true), h3]
  dsimp only
  rw [if_neg (by rw [h4]; exact Bool.false_ne_true),
      if_neg (by rw [h5]; exact Bool.false_ne_true)]

/-! ### C4: unparsable structured output -/

/-- C4 (amended): when no deterministic rule matches and the structured
model call returns content that `safe_parse` cannot turn into a decision,
the final answer is one plain model call over the full conversation window,
no tool is dispatched, no memory is saved — and the internal log gains only
the retrieval entries: no entry records the parse failure (`internal_log`
only receives "Model JSON call failed" when the model call itself raises). -/
theorem parse_failure_plain_fallback (cfg : Config) (o : Oracle)
    (st : AgentState) (input : List Nat)
    (h1 : rule1Cond (pyStrip (pyLower input)) = false)
    (h2 : rule2Cond (pyStrip (pyLower input)) = false)
    (h3 : task_triggers.find?
      (fun trig => containsSub (pyStrip (pyLower input)) trig) = none)
    (h4 : rule4Cond (pyStrip (pyLower input)) = false)
    (h5 : rule5Cond (pyStrip (pyLower input)) = false)
    (hj : o.structured (reasoningMessages cfg o
      (pushTrunc st.shortTerm ⟨pstr "user", input⟩) input) = .content none) :
    processSingleIntent cfg o st input =
      { response := o.plain (pushTrunc st.shortTerm ⟨pstr "user", input⟩),
        state := { shortTerm := pushTrunc (pushTrunc st.shortTerm ⟨pstr "user", input⟩)
                     ⟨pstr "assistant",
                       o.plain (pushTrunc st.shortTerm ⟨pstr "user", input⟩)⟩,
                   internalLog := st.internalLog ++
                     [LogEntry.retrievedMemory (o.memDocs input),
                      LogEntry.distancesLogged (o.memDists input)],
                   todos := st.todos,
                   memoryStore := st.memoryStore },
        trace := [Effect.appendedTurn ⟨pstr "user", input⟩,
                  Effect.memoryQueried input 2,
                  Effect.structuredCall (reasoningMessages cfg o
                    (pushTrunc st.shortTerm ⟨pstr "user", input⟩) input),
                  Effect.plainCall (pushTrunc st.shortTerm ⟨pstr "user", input⟩),
                  Effect.appendedTurn
                    ⟨pstr "assistant",
                      o.plain (pushTrunc st.shortTerm ⟨pstr "user", input⟩)⟩] } := by
  unfold processSingleIntent
  dsimp only
  rw [routeAndReason_rule6 cfg o _ input h1 h2 h3 h4 h5]
  unfold reasoningCycle fallbackPlain respond
  dsimp only
  rw [hj]
  rfl

/-- C4 counterexample: with unparsable structured content (and no exception
from the model call) the internal log gains only the two retrieval entries
— no entry records the parse failure — even though the plain fallback over
the full window does produce the answer.  This refutes the claim's
"an entry recording the parse failure is appended to the internal log". -/
theorem parse_failure_no_log_counterexample :
    (processSingleIntent cfg0 oracle0 st0 (pstr "hello there")).state.internalLog =
      [LogEntry.retrievedMemory [], LogEntry.distancesLogged []] ∧
    LogEntry.modelJsonFailed ∉
      (processSingleIntent cfg0 oracle0 st0 (pstr "hello there")).state.internalLog ∧
    (processSingleIntent cfg0 oracle0 st0 (pstr "hello there")).response =
      oracle0.plain (pushTrunc st0.shortTerm ⟨pstr "user", pstr "hello there"⟩) := by
  refine ⟨rfl, ?_, rfl⟩
  intro hmem
  rw [show (processSingleIntent cfg0 oracle0 st0 (pstr "hello there")).state.internalLog =
    [LogEntry.retrievedMemory [], LogEntry.distancesLogged []] from rfl] at hmem
  simp at hmem

/-- C4 witness for the amended theorem: a fresh state and the input
"hello there". -/
theorem parse_failure_plain_fallback_witness :
    processSingleIntent cfg0 oracle0 st0 (pstr "hello there") =
      { response := oracle0.plain (pushTrunc st0.shortTerm ⟨pstr "user", pstr "hello there"⟩),
        state := { shortTerm := pushTrunc
                     (pushTrunc st0.shortTerm ⟨pstr "user", pstr "hello there"⟩)
                     ⟨pstr "assistant",
                       oracle0.plain (pushTrunc st0.shortTerm ⟨pstr "user", pstr "hello there"⟩)⟩,
                   internalLog := st0.internalLog ++
                     [LogEntry.retrievedMemory (oracle0.memDocs (pstr "hello there")),
                      LogEntry.distancesLogged (oracle0.memDists (pstr "hello there"))],
                   todos := st0.todos,
                   memoryStore := st0.memoryStore },
        trace := [Effect.appendedTurn ⟨pstr "user", pstr "hello there"⟩,
                  Effect.memoryQueried (pstr "hello there") 2,
                  Effect.structuredCall (reasoningMessages cfg0 oracle0
                    (pushTrunc st0.shortTerm ⟨pstr "user", pstr "hello there"⟩)
                    (pstr "hello there")),
                  Effect.plainCall (pushTrunc st0.shortTerm ⟨pstr "user", pstr "hello there"⟩),
                  Effect.appendedTurn
                    ⟨pstr "assistant",
                      oracle0.plain (pushTrunc st0.shortTerm
                        ⟨pstr "user", pstr "hello there"⟩)⟩] } :=
  parse_failure_plain_fallback cfg0 oracle0 st0 (pstr "hello there")
    (by decide) (by decide) (by decide) (by decide) (by decide) rfl

/-! ### C1: the duplicated tool-and-synthesize block -/

/-- Effect classifier: tool invocations. -/
def isToolEffect : Effect → Bool
  | Effect.toolInvoked _ _ => true
  | Effect.appendedTurn _ => false
  | Effect.plainCall _ => false
  | Effect.structuredCall _ => false
  | Effect.memoryQueried _ _ => false
  | Effect.memoryAdded _ => false

theorem executeTool_obs (o : Oracle) (a i : List Nat) (st : AgentState) :
    (executeTool o a i st).1 = (runTool o a i st.todos).1 := rfl

theorem executeTool_effects (o : Oracle) (a i : List Nat) (st : AgentState) :
    (executeTool o a i st).2.2 = [Effect.toolInvoked a i] := rfl

theorem executeTool_todos (o : Oracle) (a i : List Nat) (st : AgentState) :
    (executeTool o a i st).2.1.todos = (runTool o a i st.todos).2 := by
  unfold executeTool
  dsimp only
  split
  · split <;> rfl
  · rfl

/-- Inside the decision flow with a tool action, the tool runs twice with
the identical arguments (taking its second input from the state the first
run left behind), and the returned answer is the plain-call synthesis from
the second observation — an expression that never mentions the decision's
`final_answer`. -/
theorem decisionFlow_tool (o : Oracle) (st : AgentState) (eff : List Effect)
    (d : Decision) (hd : d.action ≠ pstr "none") :
    (decisionFlow o st eff d).2.2 =
      o.plain (synthMessages (runTool o d.action d.actionInput
        (runTool o d.action d.actionInput st.todos).2).1) ∧
    (decisionFlow o st eff d).2.1.filter isToolEffect =
      eff.filter isToolEffect ++
        [Effect.toolInvoked d.action d.actionInput,
         Effect.toolInvoked d.action d.actionInput] ∧
    (decisionFlow o st eff d).1.todos =
      (runTool o d.action d.actionInput
        (runTool o d.action d.actionInput st.todos).2).2 := by
  unfold decisionFlow
  dsimp only
  simp only [if_pos hd]
  split
  all_goals split
  all_goals refine ⟨?_, ?_, ?_⟩
  all_goals simp [executeTool_obs, executeTool_effects, executeTool_todos,
    isToolEffect, List.filter_append]

/-- C1: whenever rule 6 is reached, the structured call parses to a
decision, and its action is not "none", the run invokes the tool twice with
the identical (action, action_input) pair — the second invocation acting on
the task list the first one produced — and the returned answer is the
synthesis plain call built from the second observation, independently of
whatever `final_answer` the decision carried. -/
theorem duplicated_tool_synthesis (cfg : Config) (o : Oracle) (st : AgentState)
    (input : List Nat) (d : Decision)
    (h1 : rule1Cond (pyStrip (pyLower input)) = false)
    (h2 : rule2Cond (pyStrip (pyLower input)) = false)
    (h3 : task_triggers.find?
      (fun trig => containsSub (pyStrip (pyLower input)) trig) = none)
    (h4 : rule4Cond (pyStrip (pyLower input)) = false)
    (h5 : rule5Cond (pyStrip (pyLower input)) = false)
    (hj : o.structured (reasoningMessages cfg o
      (pushTrunc st.shortTerm ⟨pstr "user", input⟩) input) = .content (some d))
    (hd : d.action ≠ pstr "none") :
    (processSingleIntent cfg o st input).response =
      o.plain (synthMessages (runTool o d.action d.actionInput
        (runTool o d.action d.actionInput st.todos).2).1) ∧
    (processSingleIntent cfg o st input).trace.filter isToolEffect =
      [Effect.toolInvoked d.action d.actionInput,
       Effect.toolInvoked d.action d.actionInput] ∧
    (processSingleIntent cfg o st input).state.todos =
      (runTool o d.action d.actionInput
        (runTool o d.action d.actionInput st.todos).2).2 := by
  unfold processSingleIntent
  dsimp only
  rw [routeAndReason_rule6 cfg o _ input h1 h2 h3 h4 h5]
  unfold reasoningCycle respond
  dsimp only
  rw [hj]
  dsimp only
  have hdf := decisionFlow_tool o
    { shortTerm := pushTrunc st.shortTerm ⟨pstr "user", input⟩,
      internalLog := st.internalLog ++
        [LogEntry.retrievedMemory (o.memDocs input),
         LogEntry.distancesLogged (o.memDists input)],
      todos := st.todos, memoryStore := st.memoryStore }
    [Effect.memoryQueried input 2,
     Effect.structuredCall (reasoningMessages cfg o
       (pushTrunc st.shortTerm ⟨pstr "user", input⟩) input)] d hd
  refine ⟨hdf.1, ?_, hdf.2.2⟩
  simp only [List.filter_append, List.filter_cons, isToolEffect]
  rw [hdf.2.1]
  simp [isToolEffect]

/-- A concrete decision requesting the date tool. -/
def dec0 : Decision :=
  ⟨pstr "need the date", pstr "date", pstr "", pstr "unused answer", false, pstr ""⟩

/-- Like `oracle0`, but the structured call parses to `dec0`. -/
def oracle1 : Oracle := { oracle0 with structured := fun _ => .content (some dec0) }

/-- C1 witness: a decision with action "date" runs the tool twice and
answers with the synthesis of the second observation. -/
theorem duplicated_tool_synthesis_witness :
    (processSingleIntent cfg0 oracle1 st0 (pstr "hello there")).response =
      oracle1.plain (synthMessages (runTool oracle1 dec0.action dec0.actionInput
        (runTool oracle1 dec0.action dec0.actionInput st0.todos).2).1) ∧
    (processSingleIntent cfg0 oracle1 st0 (pstr "hello there")).trace.filter isToolEffect =
      [Effect.toolInvoked dec0.action dec0.actionInput,
       Effect.toolInvoked dec0.action dec0.actionInput] ∧
    (processSingleIntent cfg0 oracle1 st0 (pstr "hello there")).state.todos =
      (runTool oracle1 dec0.action dec0.actionInput
        (runTool oracle1 dec0.action dec0.actionInput st0.todos).2).2 :=
  duplicated_tool_synthesis cfg0 oracle1 st0 (pstr "hello there") dec0
    (by decide) (by decide) (by decide) (by decide) (by decide) rfl (by decide)

/-! ### C8/C9: the deterministic task-creation rule

`user_lower.split(trigger)[-1]` is, for separators with no nontrivial
self-overlap (which all three task triggers are), exactly the substring
after the last occurrence of the trigger.  `afterLastOcc` below is the
claim-side notion — "everything after the last occurrence" — defined
independently via `Nat.findGreatest`, and proved equal to the embedded
`pySplitLast`. -/

/-- The substring of `s` following the last occurrence of `sep`, or `s`
itself when `sep` does not occur. -/
def afterLastOcc (sep s : List Nat) : List Nat :=
  if _ : ∃ i, i ≤ s.length ∧ sep <+: s.drop i then
    s.drop (Nat.findGreatest (fun i => sep <+: s.drop i) s.length + sep.length)
  else s

/-- Predicate: `sep` has no nontrivial self-overlap: no proper nonempty tail of `sep`
is a prefix of `sep`. -/
def noOverlap (sep : List Nat) : Prop :=
  ∀ k < sep.length, 0 < k → ¬ (sep.drop k <+: sep)

theorem firstOccIdx_none_spec (sep : List Nat) (hsep : sep ≠ []) :
    ∀ s : List Nat, firstOccIdx sep s = none → ∀ i, ¬ sep <+: s.drop i := by
  intro s
  induction s with
  | nil =>
    intro _ i hp
    rw [List.drop_nil] at hp
    exact hsep (List.prefix_nil.mp hp)
  | cons c t ih =>
    intro h i hp
    unfold firstOccIdx at h
    by_cases hpre : sep.isPrefixOf (c :: t)
    · rw [if_pos hpre] at h
      exact Option.noConfusion h
    · rw [if_neg hpre] at h
      have ht : firstOccIdx sep t = none := by
        cases hh : firstOccIdx sep t with
        | none => rfl
        | some j => rw [hh] at h; exact Option.noConfusion h
      cases i with
      | zero =>
        rw [List.drop_zero] at hp
        exact hpre (List.isPrefixOf_iff_prefix.mpr hp)
      | succ j =>
        exact ih ht j (by simpa using hp)

theorem firstOccIdx_some_spec (sep : List Nat) :
    ∀ (s : List Nat) (i : Nat), firstOccIdx sep s = some i →
      sep <+: s.drop i ∧ i < s.length ∧ ∀ j < i, ¬ sep <+: s.drop j := by
  intro s
  induction s with
  | nil => intro i h; exact Option.noConfusion h
  | cons c t ih =>
    intro i h
    unfold firstOccIdx at h
    by_cases hpre : sep.isPrefixOf (c :: t)
    · rw [if_pos hpre] at h
      have hi : i = 0 := (Option.some.inj h).symm
      subst hi
      exact ⟨List.isPrefixOf_iff_prefix.mp hpre, by simp, by omega⟩
    · rw [if_neg hpre] at h
      cases hh : firstOccIdx sep t with
      | none => rw [hh] at h; exact Option.noConfusion h
      | some j =>
        rw [hh] at h
        have hij : i = j + 1 := by simpa using (Option.some.inj h).symm
        subst hij
        obtain ⟨hp, hlt, hmin⟩ := ih j hh
        refine ⟨by simpa using hp, by simpa using hlt, ?_⟩
        intro k hk hkp
        cases k with
        | zero =>
          rw [List.drop_zero] at hkp
          exact hpre (List.isPrefixOf_iff_prefix.mpr hkp)
        | succ k2 =>
          exact hmin k2 (by omega) (by simpa using hkp)

/-- Two occurrences of a non-self-overlapping pattern cannot overlap. -/
theorem no_overlapping_occurrences (sep s : List Nat) (hnb : noOverlap sep)
    (i j : Nat) (hi : sep <+: s.drop i) (hj : sep <+: s.drop j)
    (hij : i < j) (hjlt : j < i + sep.length) : False := by
  obtain ⟨t, ht⟩ := hi
  have hk : j - i ≤ sep.length := by omega
  have hdj : s.drop j = sep.drop (j - i) ++ t := by
    have h1 : (s.drop i).drop (j - i) = s.drop j := by
      rw [List.drop_drop]
      congr 1
      omega
    rw [← h1, ← ht, List.drop_append_eq_append_drop,
      Nat.sub_eq_zero_of_le hk, List.drop_zero]
  rw [hdj] at hj
  have hsp : sep.drop (j - i) <+: sep := by
    have h2 := List.prefix_iff_eq_take.mp hj
    rw [List.take_append_eq_append_take,
      List.take_of_length_le (by rw [List.length_drop]; omega)] at h2
    exact ⟨_, h2.symm⟩
  exact hnb (j - i) (by omega) (by omega) hsp

/-- Removing the first occurrence and everything before it does not change
the substring after the last occurrence. -/
theorem afterLastOcc_first_step (sep : List Nat) (hsep : sep ≠ [])
    (hnb : noOverlap sep) (s : List Nat) (i : Nat)
    (hpre : sep <+: s.drop i) (hilt : i < s.length) :
    afterLastOcc sep (s.drop (i + sep.length)) = afterLastOcc sep s := by
  have hL : 1 ≤ sep.length := by
    cases sep with
    | nil => exact absurd rfl hsep
    | cons a l => simp
  have hiL : i + sep.length ≤ s.length := by
    have hle := hpre.length_le
    rw [List.length_drop] at hle
    omega
  have hs'len : (s.drop (i + sep.length)).length = s.length - (i + sep.length) :=
    List.length_drop _ _
  have hex : ∃ m, m ≤ s.length ∧ sep <+: s.drop m := ⟨i, by omega, hpre⟩
  have hP : ∀ j, (sep <+: (s.drop (i + sep.length)).drop j) ↔
      sep <+: s.drop (i + sep.length + j) := by
    intro j
    rw [List.drop_drop]
  have hGspec : sep <+: s.drop (Nat.findGreatest (fun m => sep <+: s.drop m) s.length) :=
    Nat.findGreatest_spec (P := fun m => sep <+: s.drop m) (show i ≤ s.length by omega) hpre
  have hGge : i ≤ Nat.findGreatest (fun m => sep <+: s.drop m) s.length :=
    Nat.le_findGreatest (by omega) hpre
  have hGlen : Nat.findGreatest (fun m => sep <+: s.drop m) s.length ≤ s.length :=
    Nat.findGreatest_le _
  by_cases hex2 : ∃ m, m ≤ (s.drop (i + sep.length)).length ∧
      sep <+: (s.drop (i + sep.length)).drop m
  · obtain ⟨m0, hm0le, hm0⟩ := hex2
    have hG2spec : sep <+: (s.drop (i + sep.length)).drop
        (Nat.findGreatest (fun m => sep <+: (s.drop (i + sep.length)).drop m)
          (s.drop (i + sep.length)).length) :=
      Nat.findGreatest_spec (P := fun m => sep <+: (s.drop (i + sep.length)).drop m) hm0le hm0
    have hG2len : Nat.findGreatest (fun m => sep <+: (s.drop (i + sep.length)).drop m)
        (s.drop (i + sep.length)).length ≤ (s.drop (i + sep.length)).length :=
      Nat.findGreatest_le _
    have htrans := (hP _).mp hG2spec
    have hGge2 : i + sep.length +
        Nat.findGreatest (fun m => sep <+: (s.drop (i + sep.length)).drop m)
          (s.drop (i + sep.length)).length ≤
        Nat.findGreatest (fun m => sep <+: s.drop m) s.length :=
      Nat.le_findGreatest (by omega) htrans
    have hGback : sep <+: (s.drop (i + sep.length)).drop
        (Nat.findGreatest (fun m => sep <+: s.drop m) s.length - (i + sep.length)) := by
      rw [hP]
      have harith : i + sep.length +
          (Nat.findGreatest (fun m => sep <+: s.drop m) s.length - (i + sep.length)) =
          Nat.findGreatest (fun m => sep <+: s.drop m) s.length := by omega
      rw [harith]
      exact hGspec
    have hGle2 : Nat.findGreatest (fun m => sep <+: s.drop m) s.length - (i + sep.length) ≤
        Nat.findGreatest (fun m => sep <+: (s.drop (i + sep.length)).drop m)
          (s.drop (i + sep.length)).length :=
      Nat.le_findGreatest (by omega) hGback
    unfold afterLastOcc
    rw [dif_pos (⟨m0, hm0le, hm0⟩ : ∃ m, m ≤ (s.drop (i + sep.length)).length ∧
      sep <+: (s.drop (i + sep.length)).drop m), dif_pos hex]
    rw [List.drop_drop]
    congr 1
    omega
  · have hGeq : Nat.findGreatest (fun m => sep <+: s.drop m) s.length = i := by
      by_contra hne
      have hgt : i < Nat.findGreatest (fun m => sep <+: s.drop m) s.length := by omega
      by_cases hcase : Nat.findGreatest (fun m => sep <+: s.drop m) s.length <
          i + sep.length
      · exact no_overlapping_occurrences sep s hnb i _ hpre hGspec hgt hcase
      · apply hex2
        refine ⟨Nat.findGreatest (fun m => sep <+: s.drop m) s.length - (i + sep.length),
          by omega, ?_⟩
        rw [hP]
        have harith : i + sep.length +
            (Nat.findGreatest (fun m => sep <+: s.drop m) s.length - (i + sep.length)) =
            Nat.findGreatest (fun m => sep <+: s.drop m) s.length := by omega
        rw [harith]
        exact hGspec
    unfold afterLastOcc
    rw [dif_neg hex2, dif_pos hex, hGeq]

/-- The embedded `split(sep)[-1]` equals the substring after the last
occurrence, for non-self-overlapping separators. -/
theorem pySplitLastAux_eq_afterLastOcc (sep : List Nat) (hsep : sep ≠ [])
    (hnb : noOverlap sep) :
    ∀ (fuel : Nat) (s : List Nat), s.length ≤ fuel →
      pySplitLastAux fuel sep s = afterLastOcc sep s := by
  intro fuel
  induction fuel with
  | zero =>
    intro s hs
    have hz : s = [] := List.length_eq_zero.mp (Nat.le_zero.mp hs)
    subst hz
    have hne : ¬ ∃ m, m ≤ ([] : List Nat).length ∧ sep <+: ([] : List Nat).drop m := by
      rintro ⟨m, _, hp⟩
      rw [List.drop_nil] at hp
      exact hsep (List.prefix_nil.mp hp)
    unfold pySplitLastAux afterLastOcc
    rw [dif_neg hne]
  | succ fuel ih =>
    intro s hs
    unfold pySplitLastAux
    cases hocc : firstOccIdx sep s with
    | none =>
      have hno := firstOccIdx_none_spec sep hsep s hocc
      have hne : ¬ ∃ m, m ≤ s.length ∧ sep <+: s.drop m := by
        rintro ⟨m, _, hp⟩
        exact hno m hp
      show s = afterLastOcc sep s
      unfold afterLastOcc
      rw [dif_neg hne]
    | some i =>
      obtain ⟨hpre, hilt, hmin⟩ := firstOccIdx_some_spec sep s i hocc
      have hL : 1 ≤ sep.length := by
        cases sep with
        | nil => exact absurd rfl hsep
        | cons a l => simp
      show pySplitLastAux fuel sep (s.drop (i + sep.length)) = afterLastOcc sep s
      rw [ih (s.drop (i + sep.length)) (by rw [List.length_drop]; omega)]
      exact afterLastOcc_first_step sep hsep hnb s i hpre hilt

theorem pySplitLast_eq_afterLastOcc (sep s : List Nat) (hsep : sep ≠ [])
    (hnb : noOverlap sep) : pySplitLast sep s = afterLastOcc sep s := by
  unfold pySplitLast
  rw [if_neg hsep]
  exact pySplitLastAux_eq_afterLastOcc sep hsep hnb s.length s le_rfl

instance noOverlap.decidable (sep : List Nat) : Decidable (noOverlap sep) := by
  unfold noOverlap
  infer_instance

/-- All three task-creation triggers are nonempty and self-overlap free. -/
theorem task_triggers_wf : ∀ trig ∈ task_triggers, trig ≠ [] ∧ noOverlap trig := by
  intro trig htrig
  simp only [task_triggers, List.mem_cons, List.not_mem_nil, or_false] at htrig
  rcases htrig with h | h | h <;> subst h <;> exact ⟨by decide, by decide⟩

/-- C8: when rules 1-2 do not match and some trigger occurs, the first
trigger in configured order is selected (`find?`), the task description is
the trimmed substring after the last occurrence of that trigger in the
lower-cased input, and `add_todo`'s message is returned verbatim with no
model call, tool log, memory access or log entry. -/
theorem task_creation_extraction (cfg : Config) (o : Oracle) (st : AgentState)
    (input : List Nat) (trig : List Nat)
    (h1 : rule1Cond (pyStrip (pyLower input)) = false)
    (h2 : rule2Cond (pyStrip (pyLower input)) = false)
    (h3 : task_triggers.find?
      (fun t => containsSub (pyStrip (pyLower input)) t) = some trig) :
    processSingleIntent cfg o st input =
      { response := (add_todo (pyStrip (afterLastOcc trig (pyStrip (pyLower input))))
          st.todos).1,
        state := { shortTerm := pushTrunc (pushTrunc st.shortTerm ⟨pstr "user", input⟩)
                     ⟨pstr "assistant",
                       (add_todo (pyStrip (afterLastOcc trig (pyStrip (pyLower input))))
                         st.todos).1⟩,
                   internalLog := st.internalLog,
                   todos := (add_todo (pyStrip (afterLastOcc trig (pyStrip (pyLower input))))
                     st.todos).2,
                   memoryStore := st.memoryStore },
        trace := [Effect.appendedTurn ⟨pstr "user", input⟩,
                  Effect.appendedTurn
                    ⟨pstr "assistant",
                      (add_todo (pyStrip (afterLastOcc trig (pyStrip (pyLower input))))
                        st.todos).1⟩] } := by
  obtain ⟨hne, hnb⟩ := task_triggers_wf trig (List.mem_of_find?_eq_some h3)
  unfold processSingleIntent routeAndReason respond
  dsimp only
  rw [if_neg (by rw [h1]; exact Bool.false_ne_true),
    if_neg (by rw [h2]; exact Bool.false_ne_true), h3]
  dsimp only
  rw [pySplitLast_eq_afterLastOcc trig (pyStrip (pyLower input)) hne hnb]
  rfl

/-- C8 witness: "I need to visit the bank to deposit a check" — the
trigger "i need to" is found first, and extraction runs from its last
occurrence. -/
theorem task_creation_extraction_witness :
    processSingleIntent cfg0 oracle0 st0 (pstr "I need to visit the bank") =
      { response := (add_todo (pyStrip (afterLastOcc (pstr "i need to")
          (pyStrip (pyLower (pstr "I need to visit the bank"))))) st0.todos).1,
        state := { shortTerm := pushTrunc
                     (pushTrunc st0.shortTerm ⟨pstr "user", pstr "I need to visit the bank"⟩)
                     ⟨pstr "assistant",
                       (add_todo (pyStrip (afterLastOcc (pstr "i need to")
                         (pyStrip (pyLower (pstr "I need to visit the bank")))))
                         st0.todos).1⟩,
                   internalLog := st0.internalLog,
                   todos := (add_todo (pyStrip (afterLastOcc (pstr "i need to")
                     (pyStrip (pyLower (pstr "I need to visit the bank")))))
                     st0.todos).2,
                   memoryStore := st0.memoryStore },
        trace := [Effect.appendedTurn ⟨pstr "user", pstr "I need to visit the bank"⟩,
                  Effect.appendedTurn
                    ⟨pstr "assistant",
                      (add_todo (pyStrip (afterLastOcc (pstr "i need to")
                        (pyStrip (pyLower (pstr "I need to visit the bank")))))
                        st0.todos).1⟩] } :=
  task_creation_extraction cfg0 oracle0 st0 (pstr "I need to visit the bank")
    (pstr "i need to") (by decide) (by decide) (by decide)

/-! ### C9: the stored task text is fully lower-cased -/

theorem lowerChar_idem (c : Nat) : lowerChar (lowerChar c) = lowerChar c := by
  unfold lowerChar
  split_ifs <;> omega

theorem mem_pyStrip {c : Nat} {s : List Nat} (h : c ∈ pyStrip s) : c ∈ s := by
  unfold pyStrip at h
  rw [List.mem_reverse] at h
  have h2 := List.Sublist.mem h (List.dropWhile_sublist _)
  rw [List.mem_reverse] at h2
  exact List.Sublist.mem h2 (List.dropWhile_sublist _)

theorem mem_pySplitLastAux {c : Nat} (sep : List Nat) :
    ∀ (fuel : Nat) (s : List Nat), c ∈ pySplitLastAux fuel sep s → c ∈ s := by
  intro fuel
  induction fuel with
  | zero => intro s h; exact h
  | succ fuel ih =>
    intro s h
    unfold pySplitLastAux at h
    split at h
    · exact h
    · exact List.Sublist.mem (ih _ h) (List.drop_sublist _ _)

theorem pyLower_fixed (t : List Nat) (h : ∀ c ∈ t, lowerChar c = c) :
    pyLower t = t := by
  unfold pyLower
  induction t with
  | nil => rfl
  | cons c t2 ih =>
    rw [List.map_cons, h c (by simp), ih (fun d hd => h d (by simp [hd]))]

/-- The task text the deterministic rule extracts is invariant under
lower-casing: every code point of it comes from the lower-cased input. -/
theorem extracted_task_lowercase (input trig : List Nat) :
    pyLower (pyStrip (pySplitLast trig (pyStrip (pyLower input)))) =
      pyStrip (pySplitLast trig (pyStrip (pyLower input))) := by
  apply pyLower_fixed
  intro c hc
  have hm1 : c ∈ pySplitLast trig (pyStrip (pyLower input)) := mem_pyStrip hc
  have hm2 : c ∈ pyStrip (pyLower input) := by
    unfold pySplitLast at hm1
    split at hm1
    · exact hm1
    · exact mem_pySplitLastAux trig _ _ hm1
  have hm3 : c ∈ pyLower input := mem_pyStrip hm2
  obtain ⟨c2, _, hc2⟩ := List.mem_map.mp hm3
  rw [← hc2]
  exact lowerChar_idem c2

/-- C9: the deterministic task-creation rule passes `add_todo` a fully
lower-cased description (its own lower-casing is a no-op), the persisted
list is exactly `add_todo` applied to that description, and — by contrast —
`add_todo` itself stores whatever text it is handed verbatim, so the
reasoning cycle's `add_todo` action preserves the model-supplied casing. -/
theorem task_creation_stores_lowercase (cfg : Config) (o : Oracle)
    (st : AgentState) (input : List Nat) (trig : List Nat)
    (h1 : rule1Cond (pyStrip (pyLower input)) = false)
    (h2 : rule2Cond (pyStrip (pyLower input)) = false)
    (h3 : task_triggers.find?
      (fun t => containsSub (pyStrip (pyLower input)) t) = some trig) :
    pyLower (pyStrip (pySplitLast trig (pyStrip (pyLower input)))) =
      pyStrip (pySplitLast trig (pyStrip (pyLower input))) ∧
    (processSingleIntent cfg o st input).state.todos =
      (add_todo (pyStrip (pySplitLast trig (pyStrip (pyLower input)))) st.todos).2 ∧
    (∀ (task : List Nat) (todos : List TodoItem),
      (todos.any fun t => pyLower (pyStrip task) = pyLower (pyStrip t.task)) = false →
      (add_todo task todos).2 = todos ++ [⟨task, false⟩]) := by
  refine ⟨extracted_task_lowercase input trig, ?_, ?_⟩
  · unfold processSingleIntent routeAndReason respond
    dsimp only
    rw [if_neg (by rw [h1]; exact Bool.false_ne_true),
      if_neg (by rw [h2]; exact Bool.false_ne_true), h3]
  · intro task todos hfresh
    unfold add_todo add_task
    rw [if_neg (by rw [hfresh]; exact Bool.false_ne_true)]

/-- C9 witness: "I need to Buy BREAD" stores "buy bread". -/
theorem task_creation_stores_lowercase_witness :
    pyLower (pyStrip (pySplitLast (pstr "i need to")
        (pyStrip (pyLower (pstr "I need to Buy BREAD"))))) =
      pyStrip (pySplitLast (pstr "i need to")
        (pyStrip (pyLower (pstr "I need to Buy BREAD")))) ∧
    (processSingleIntent cfg0 oracle0 st0 (pstr "I need to Buy BREAD")).state.todos =
      (add_todo (pyStrip (pySplitLast (pstr "i need to")
        (pyStrip (pyLower (pstr "I need to Buy BREAD"))))) st0.todos).2 :=
  ⟨(task_creation_stores_lowercase cfg0 oracle0 st0 (pstr "I need to Buy BREAD")
      (pstr "i need to") (by decide) (by decide) (by decide)).1,
   (task_creation_stores_lowercase cfg0 oracle0 st0 (pstr "I need to Buy BREAD")
      (pstr "i need to") (by decide) (by decide) (by decide)).2.1⟩

end OpenClaw
